import Mathlib

/-!
Shallow embedding of `src/cli/plasmo/src/features/manifest-factory/scaffolder.ts`.

The scaffolder is a class reading a project layout (candidate index/html path
lists per UI page kind, output directories, a mount extension) and a
filesystem, and writing generated files.  We model:

* the filesystem as a function `Fs : String → Option String` (path to content,
  `none` when the file does not exist);
* Node path functions (`resolve`, `join`, `relative`) as an abstract
  `PathOps` record, since they are external collaborators of this module;
* the template cache as an association list threaded through each operation;
* the observable effects of one operation as an `Evts` record holding the
  chronological file writes, template/source file reads, directory creations
  and recursive directory copies it performed;
* JavaScript `String.prototype.replaceAll` as a structural scan over
  `List Char` (non-overlapping, left to right, replacement text not rescanned,
  with the JS empty-pattern behaviour).

`Promise.all` concurrency is single-threaded cooperative scheduling over
filesystem calls; we sequentialize the joined tasks in array order, which
fixes the order of the event log but not the set of effects.
-/

namespace Plasmo

/-- `listPrefix p s` is true when `p` is a prefix of `s` (our own spelling of
list prefix testing, kept executable for kernel evaluation). -/
def listPrefix : List Char → List Char → Bool
  | [], _ => true
  | _ :: _, [] => false
  | a :: as, b :: bs => a == b && listPrefix as bs

/-- Core scan of JS `replaceAll` for a non-empty pattern: `skip` counts
characters still inside an already-matched occurrence (they were consumed by
the replacement and emit nothing). -/
def scanRep (pat rep : List Char) : List Char → Nat → List Char
  | [], _ => []
  | _ :: rest, skip + 1 => scanRep pat rep rest skip
  | c :: rest, 0 =>
    if listPrefix pat (c :: rest) then
      rep ++ scanRep pat rep rest (pat.length - 1)
    else
      c :: scanRep pat rep rest 0

/-- Occurrence counter following exactly the same non-overlapping scan as
`scanRep`. -/
def countOccAux (pat : List Char) : List Char → Nat → Nat
  | [], _ => 0
  | _ :: rest, skip + 1 => countOccAux pat rest skip
  | c :: rest, 0 =>
    if listPrefix pat (c :: rest) then
      countOccAux pat rest (pat.length - 1) + 1
    else
      countOccAux pat rest 0

/-- Number of non-overlapping occurrences of `pat` in `s`, counted left to
right (the occurrences JS `replaceAll` would replace). -/
def countOcc (pat s : String) : Nat := countOccAux pat.data s.data 0

/-- JavaScript `String.prototype.replaceAll(pat, rep)`: replaces every
non-overlapping occurrence of `pat` in `s`, scanning left to right; the
replacement text is not rescanned.  For the empty pattern JS inserts `rep`
at every position, which we reproduce. -/
def jsReplaceAll (s pat rep : String) : String :=
  if pat.data.isEmpty then
    String.mk (rep.data ++ s.data.flatMap (fun c => c :: rep.data))
  else
    String.mk (scanRep pat.data rep.data s.data 0)

/-- `#generate`, line 194-197: the final scaffold text is the left fold of
`replaceAll` over the replacement entries, in map-iteration order.  (JS
`Object.entries` iterates string keys in insertion order; we model a
replacement map as the corresponding ordered list of pairs.) -/
def applyReplace (t : String) (m : List (String × String)) : String :=
  m.foldl (fun html kv => jsReplaceAll html kv.1 kv.2) t

/-- The four canonical extension UI page kinds, line 13 of the source. -/
inductive ExtensionUIPage
  | popup
  | options
  | devtools
  | newtab
  deriving DecidableEq, Repr

/-- The string name of a page kind. -/
def pageName : ExtensionUIPage → String
  | ExtensionUIPage.popup => "popup"
  | ExtensionUIPage.options => "options"
  | ExtensionUIPage.devtools => "devtools"
  | ExtensionUIPage.newtab => "newtab"

/-- `path.ParsedPath` as used by the source: relative directory, base name,
extension of a discovered module. -/
structure ParsedPath where
  dir : String
  name : String
  ext : String
  deriving DecidableEq, Repr

/-- The project-layout data the scaffolder consumes from its `BaseFactory`
collaborator: display name, mount extension, the scaffold-template root, the
static template root, the two output directories, and the per-page-kind
ordered candidate lists. -/
structure Env where
  name : String
  mountExt : String
  staticScaffoldPath : String
  staticTemplatePath : String
  staticDirectory : String
  dotPlasmoDirectory : String
  indexList : ExtensionUIPage → List String
  htmlList : ExtensionUIPage → List String

/-- Abstract Node `path` functions (external collaborators): `presolve a b`
is `path.resolve(a, b)`, `pjoin a b` is `path.join(a, b)`, `prelative a b`
is `path.relative(a, b)`. -/
structure PathOps where
  presolve : String → String → String
  pjoin : String → String → String
  prelative : String → String → String

/-- Modelled from the spec: `toPosix` from `features/helpers/path` is code of
this repository that is not under `src/`; per the spec it normalizes a path
to forward-slash form, which we model as replacing every backslash by a
forward slash. -/
def toPosix (s : String) : String := jsReplaceAll s "\\" "/"

/-- The filesystem visible to the scaffolder: maps a path to its content when
the file exists. -/
abbrev Fs := String → Option String

/-- `existsSync` on our filesystem model. -/
def fexists (fs : Fs) (p : String) : Bool := (fs p).isSome

/-- The `#scaffoldCache` field: template file name to loaded text. -/
abbrev Cache := List (String × String)

/-- JS property read `cache[fileName]` (`undefined` becomes `none`). -/
def cacheVal (c : Cache) (n : String) : Option String :=
  (c.find? (fun kv => kv.1 == n)).map (fun kv => kv.2)

/-- JS property write `cache[fileName] = t`. -/
def setCache (c : Cache) (n t : String) : Cache := (n, t) :: c

/-- The observable filesystem effects of one operation, in program order:
file writes (path, content), file reads, directory creations (`ensureDir`)
and recursive directory copies (`copy`). -/
structure Evts where
  writes : List (String × String)
  reads : List String
  dirs : List String
  copies : List (String × String)
  deriving DecidableEq, Repr

/-- Concatenation of event logs of two operations run one after the other. -/
def Evts.app (a b : Evts) : Evts :=
  ⟨a.writes ++ b.writes, a.reads ++ b.reads, a.dirs ++ b.dirs, a.copies ++ b.copies⟩

/-- Replacement token for the imported user module in the mount-script
template. -/
def importToken : String := "__plasmo_import_module__"

/-- Replacement token for the page title in the HTML template. -/
def titleToken : String := "__plasmo_static_index_title__"

/-- Replacement token for the mounted script path in the HTML template. -/
def scriptToken : String := "__plasmo_static_script__"

/-- Replacement token for the content-script module in the content-script
mount template. -/
def contentToken : String := "__plasmo_mount_content_script__"

/-- The closing-body marker used as the structural injection anchor. -/
def bodyClose : String := "</body>"

/-- The markup `generateHtml` inserts in front of the closing-body marker:
the root mount element and the module script tag, line 108. -/
def injectPrefix (scriptMountPath : String) : String :=
  "<div id=\"root\"></div><script src=\"" ++ scriptMountPath ++ "\" type=\"module\"></script>"

/-- The full replacement for the `</body>` anchor in `generateHtml`,
line 108: injected markup followed by the marker itself. -/
def injectedBody (scriptMountPath : String) : String :=
  injectPrefix scriptMountPath ++ bodyClose

/-- JS truthiness of the `htmlFile` parameter (`"" as string | false`): a
non-empty string is truthy, the empty string and `false` are falsy.  `none`
stands for `false` and for an omitted argument (the default is `""`, equally
falsy). -/
def htmlTruthy : Option String → Bool
  | none => false
  | some s => if s = "" then false else true

/-- `#generate` (lines 189-200): apply the replacement map and write the
result to the output path. -/
def generate (templateContent outputFilePath : String)
    (m : List (String × String)) : Evts :=
  ⟨[(outputFilePath, applyReplace templateContent m)], [], [], []⟩

/-- `#copyGenerate` (lines 202-209): read the source file (never cached),
then generate.  Fails when the source file is missing. -/
def copyGenerate (fs : Fs) (filePath outputFilePath : String)
    (m : List (String × String)) : Option Evts :=
  match fs filePath with
  | none => none
  | some t => some ⟨[(outputFilePath, applyReplace t m)], [filePath], [], []⟩

/-- The on-disk path of a named built-in scaffold template,
`resolve(staticScaffoldPath, fileName)` (line 218). -/
def scaffoldPath (P : PathOps) (env : Env) (fileName : String) : String :=
  P.presolve env.staticScaffoldPath fileName

/-- `#cachedGenerate` (lines 211-228).  Faithful to the JS truthiness test
`if (!this.#scaffoldCache[fileName])`: the template file is (re)read when the
cache holds no entry or holds the empty string. -/
def cachedGenerate (P : PathOps) (env : Env) (fs : Fs)
    (fileName outputFilePath : String) (m : List (String × String))
    (c : Cache) : Option (Cache × Evts) :=
  match cacheVal c fileName with
  | some t =>
    if t = "" then
      match fs (scaffoldPath P env fileName) with
      | none => none
      | some u =>
        some (setCache c fileName u,
          ⟨[(outputFilePath, applyReplace u m)], [scaffoldPath P env fileName], [], []⟩)
    else
      some (c, ⟨[(outputFilePath, applyReplace t m)], [], [], []⟩)
  | none =>
    match fs (scaffoldPath P env fileName) with
    | none => none
    | some u =>
      some (setCache c fileName u,
        ⟨[(outputFilePath, applyReplace u m)], [scaffoldPath P env fileName], [], []⟩)

/-- `generateHtml` (lines 95-111): with a truthy `htmlFile`, copy-generate
from the user file with the title/script replacements plus the structural
closing-body injection; otherwise instantiate the cached built-in
`index.html` template with the title/script replacements. -/
def generateHtml (P : PathOps) (env : Env) (fs : Fs)
    (outputPath scriptMountPath : String) (htmlFile : Option String)
    (c : Cache) : Option (Cache × Evts) :=
  let templateReplace := [(titleToken, env.name), (scriptToken, scriptMountPath)]
  if htmlTruthy htmlFile then
    match copyGenerate fs (htmlFile.getD "") outputPath
        (templateReplace ++ [(bodyClose, injectedBody scriptMountPath)]) with
    | none => none
    | some e => some (c, e)
  else
    cachedGenerate P env fs "index.html" outputPath templateReplace c

/-- `createPageHtml` (lines 113-125). -/
def createPageHtml (P : PathOps) (env : Env) (fs : Fs)
    (k : ExtensionUIPage) (htmlFile : Option String) (c : Cache) :
    Option (Cache × Evts) :=
  generateHtml P env fs
    (P.presolve env.dotPlasmoDirectory (pageName k ++ ".html"))
    ("./static/" ++ pageName k ++ env.mountExt)
    htmlFile c

/-- Line 64: the first candidate index module that exists on disk. -/
def resolvedIndexModule (env : Env) (fs : Fs) (k : ExtensionUIPage) : Option String :=
  (env.indexList k).find? (fexists fs)

/-- Line 65: the first candidate HTML file that exists on disk. -/
def resolvedHtmlFile (env : Env) (fs : Fs) (k : ExtensionUIPage) : Option String :=
  (env.htmlList k).find? (fexists fs)

/-- Lines 72-78: the import token embedded in the page mount script — the
resolved module path relative to the static directory in forward-slash form,
or the synthetic alias when no candidate exists. -/
def indexImport (P : PathOps) (env : Env) (fs : Fs) (k : ExtensionUIPage) : String :=
  match resolvedIndexModule env fs k with
  | some f => toPosix (P.prelative env.staticDirectory f)
  | none => "~" ++ pageName k

/-- `#initUiPageTemplate` (lines 58-93): resolve candidates, ensure the
static directory, then (concurrently, sequentialized in array order) generate
the page mount script and the page HTML; return whether an index module was
found. -/
def initUiPageTemplate (P : PathOps) (env : Env) (fs : Fs)
    (k : ExtensionUIPage) (c : Cache) : Option (Bool × Cache × Evts) :=
  let dirEvt : Evts := ⟨[], [], [env.staticDirectory], []⟩
  match cachedGenerate P env fs ("index" ++ env.mountExt)
      (P.presolve env.staticDirectory (pageName k ++ env.mountExt))
      [(importToken, indexImport P env fs k)] c with
  | none => none
  | some (c1, e1) =>
    match createPageHtml P env fs k (resolvedHtmlFile env fs k) c1 with
    | none => none
    | some (c2, e2) =>
      some ((resolvedIndexModule env fs k).isSome, c2, (dirEvt.app e1).app e2)

/-- `#copyStaticCommon` (lines 44-56): one recursive directory copy. -/
def copyStaticCommon (P : PathOps) (env : Env) : Evts :=
  ⟨[], [], [],
    [(P.presolve env.staticTemplatePath "common", P.presolve env.staticDirectory "common")]⟩

/-- `init` (lines 32-42): the static-asset copy and the four page
generations, joined by `Promise.all` in array order popup, options, newtab,
devtools; the returned list drops the copy result and keeps the four
booleans in that array order. -/
def init (P : PathOps) (env : Env) (fs : Fs) (c : Cache) :
    Option (List Bool × Cache × Evts) :=
  let e0 := copyStaticCommon P env
  match initUiPageTemplate P env fs ExtensionUIPage.popup c with
  | none => none
  | some (b1, c1, e1) =>
    match initUiPageTemplate P env fs ExtensionUIPage.options c1 with
    | none => none
    | some (b2, c2, e2) =>
      match initUiPageTemplate P env fs ExtensionUIPage.newtab c2 with
      | none => none
      | some (b3, c3, e3) =>
        match initUiPageTemplate P env fs ExtensionUIPage.devtools c3 with
        | none => none
        | some (b4, c4, e4) =>
          some ([b1, b2, b3, b4], c4, (((e0.app e1).app e2).app e3).app e4)

/-- `createPageMount` (lines 127-159): mirror the module directory under the
generated-output directory, then either the two-file mount (recognized UI
extension: mount script plus HTML) or the single-file mount (HTML only, the
script tag pointing at the aliased module itself); returns the HTML path.
`uiExt` is the injected `isSupportedUiExt` predicate (external collaborator). -/
def createPageMount (P : PathOps) (env : Env) (fs : Fs)
    (uiExt : String → Bool) (module : ParsedPath) (c : Cache) :
    Option (String × Cache × Evts) :=
  let staticModulePath := P.presolve env.dotPlasmoDirectory module.dir
  let htmlPath := P.presolve staticModulePath (module.name ++ ".html")
  let dirEvt : Evts := ⟨[], [], [staticModulePath], []⟩
  if uiExt module.ext then
    match cachedGenerate P env fs ("index" ++ env.mountExt)
        (P.presolve staticModulePath (module.name ++ env.mountExt))
        [(importToken, "~" ++ toPosix (P.pjoin module.dir module.name))] c with
    | none => none
    | some (c1, e1) =>
      match generateHtml P env fs htmlPath
          ("./" ++ module.name ++ env.mountExt) none c1 with
      | none => none
      | some (c2, e2) => some (htmlPath, c2, (dirEvt.app e1).app e2)
  else
    match generateHtml P env fs htmlPath
        ("~" ++ toPosix (P.pjoin module.dir module.name) ++ module.ext) none c with
    | none => none
    | some (c1, e1) => some (htmlPath, c1, dirEvt.app e1)

/-- `createContentScriptMount` (lines 161-187): mirror the module directory
under the static-output directory, always instantiate the content-script
mount template with the synthetic alias, return the mount-script path. -/
def createContentScriptMount (P : PathOps) (env : Env) (fs : Fs)
    (module : ParsedPath) (c : Cache) : Option (String × Cache × Evts) :=
  let staticModulePath := P.presolve env.staticDirectory module.dir
  let staticContentPath := P.presolve staticModulePath (module.name ++ env.mountExt)
  let dirEvt : Evts := ⟨[], [], [staticModulePath], []⟩
  match cachedGenerate P env fs ("content-script-ui-mount" ++ env.mountExt)
      staticContentPath
      [(contentToken, "~" ++ toPosix (P.pjoin module.dir module.name))] c with
  | none => none
  | some (c1, e1) => some (staticContentPath, c1, dirEvt.app e1)

/-- Modelled from the spec: the alternative simultaneous-replacement
semantics that section 8 of the spec contrasts with the implemented one —
every replacement is computed from the original text in a single scan, a
later token never matching text introduced by an earlier replacement.
Defined only to be compared with `applyReplace`. -/
def simulScan (m : List (String × String)) : List Char → Nat → List Char
  | [], _ => []
  | _ :: rest, skip + 1 => simulScan m rest skip
  | c :: rest, 0 =>
    match m.find? (fun kv => !kv.1.data.isEmpty && listPrefix kv.1.data (c :: rest)) with
    | some kv => kv.2.data ++ simulScan m rest (kv.1.length - 1)
    | none => c :: simulScan m rest 0

/-- Single-pass simultaneous substitution over the original text (spec
model, see `simulScan`). -/
def simultaneousApply (t : String) (m : List (String × String)) : String :=
  String.mk (simulScan m t.data 0)

/-- A cache is consistent with the filesystem when every non-empty cached
text equals the current content of the corresponding template file. -/
def cacheOk (P : PathOps) (env : Env) (fs : Fs) (c : Cache) : Prop :=
  ∀ n t, cacheVal c n = some t → t ≠ "" → fs (scaffoldPath P env n) = some t

/-! ### Concrete fixtures used by witnesses and counterexamples -/

/-- Concrete path operations for closed instances: plain slash joining, and
a `relative` that returns its second argument unchanged. -/
def pathsFix : PathOps :=
  ⟨fun a b => a ++ "/" ++ b, fun a b => a ++ "/" ++ b, fun _ b => b⟩

/-- Empty candidate lists. -/
def noLists : ExtensionUIPage → List String := fun _ => []

/-- A minimal project layout for closed instances. -/
def baseEnv : Env := ⟨"N", ".tsx", "T", "S", "SD", "DP", noLists, noLists⟩

/-- A filesystem holding the three built-in scaffold templates. -/
def fsTemplates : Fs := fun p =>
  if p = "T/index.tsx" then some "I __plasmo_import_module__"
  else if p = "T/index.html" then some "H __plasmo_static_script__"
  else if p = "T/content-script-ui-mount.tsx" then some "C __plasmo_mount_content_script__"
  else none

/-- Candidate index lists where only the newtab candidate exists on disk
(`devtools` has a candidate path that does not exist). -/
def listsC1 : ExtensionUIPage → List String
  | ExtensionUIPage.newtab => ["nt"]
  | ExtensionUIPage.devtools => ["dt"]
  | _ => []

/-- Layout for the `init` instances. -/
def envC1 : Env := ⟨"N", ".tsx", "T", "S", "SD", "DP", listsC1, noLists⟩

/-- Filesystem for the `init` instances: templates plus the newtab index. -/
def fsC1 : Fs := fun p => if p = "nt" then some "x" else fsTemplates p

/-- The cache after both the mount-script and HTML templates were loaded
(produced by the `init` and two-file page-mount instances). -/
def cacheFull : Cache :=
  [("index.html", "H __plasmo_static_script__"), ("index.tsx", "I __plasmo_import_module__")]

/-- The event log produced by `init pathsFix envC1 fsC1 []`. -/
def evtsC9 : Evts :=
  ⟨[("SD/popup.tsx", "I ~popup"), ("DP/popup.html", "H ./static/popup.tsx"),
    ("SD/options.tsx", "I ~options"), ("DP/options.html", "H ./static/options.tsx"),
    ("SD/newtab.tsx", "I nt"), ("DP/newtab.html", "H ./static/newtab.tsx"),
    ("SD/devtools.tsx", "I ~devtools"), ("DP/devtools.html", "H ./static/devtools.tsx")],
   ["T/index.tsx", "T/index.html"], ["SD", "SD", "SD", "SD"],
   [("S/common", "SD/common")]⟩

/-- Candidate index lists for the resolver instances: both popup candidates
exist, only the second options candidate exists, the devtools candidate does
not exist. -/
def listsC4 : ExtensionUIPage → List String
  | ExtensionUIPage.popup => ["A", "B"]
  | ExtensionUIPage.options => ["miss", "B"]
  | ExtensionUIPage.devtools => ["miss"]
  | ExtensionUIPage.newtab => []

/-- Layout for the resolver instances. -/
def envC4 : Env := ⟨"N", ".tsx", "T", "S", "SD", "DP", listsC4, noLists⟩

/-- Filesystem for the resolver instances: only `A` and `B` exist. -/
def fsC4 : Fs := fun p =>
  if p = "A" then some "a" else if p = "B" then some "b" else none

/-- A filesystem whose only template file is empty (cache-truthiness
instance). -/
def fsC2x : Fs := fun p => if p = "T/empty.tpl" then some "" else none

/-- A filesystem with one small non-empty template (cache instance). -/
def fsC2w : Fs := fun p => if p = "T/tpl.txt" then some "hello" else none

/-- A user HTML file with one closing-body marker and no placeholder
tokens. -/
def fsC5w : Fs := fun p => if p = "user.html" then some "<body>k</body>" else none

/-- A user HTML file whose bytes before its single closing-body marker are
exactly the script placeholder token. -/
def fsC5x : Fs := fun p =>
  if p = "user.html" then some "__plasmo_static_script__</body>" else none

/-- A user HTML file with no closing-body marker and no tokens. -/
def fsC6w : Fs := fun p => if p = "user.html" then some "<p>x</p>" else none

/-- A user HTML file with no closing-body marker whose script placeholder
token splits the letters of a marker. -/
def fsC6x : Fs := fun p =>
  if p = "user.html" then some "a</bod__plasmo_static_script__y>" else none

/-- A concrete recognized-extension predicate: exactly `.tsx`. -/
def uiExtFix : String → Bool := fun e => e == ".tsx"

/-- Result events of the two-file page mount instance. -/
def evtsC7ui : Evts :=
  ⟨[("DP/tabs/main.tsx", "I ~tabs/main"), ("DP/tabs/main.html", "H ./main.tsx")],
   ["T/index.tsx", "T/index.html"], ["DP/tabs"], []⟩

/-- Result events of the single-file page mount instance. -/
def evtsC7single : Evts :=
  ⟨[("DP/tabs/home.html", "H ~tabs/home.svelte")], ["T/index.html"], ["DP/tabs"], []⟩

/-- Result events of the content-script mount instance. -/
def evtsC8 : Evts :=
  ⟨[("SD/cs/overlay.tsx", "C ~cs/overlay")], ["T/content-script-ui-mount.tsx"], ["SD/cs"], []⟩

/-! ### Lemmas about the replaceAll scan -/

theorem listPrefix_eq_append (p : List Char) :
    ∀ s : List Char, listPrefix p s = true → s = p ++ s.drop p.length := by
  induction p with
  | nil => intro s _; simp
  | cons a as ih =>
    intro s h
    cases s with
    | nil => simp [listPrefix] at h
    | cons b bs =>
      simp only [listPrefix, Bool.and_eq_true, beq_iff_eq] at h
      obtain ⟨rfl, hpre⟩ := h
      simpa using ih bs hpre

theorem scanRep_skip (pat rep : List Char) :
    ∀ (s : List Char) (k : Nat), scanRep pat rep s k = scanRep pat rep (s.drop k) 0 := by
  intro s
  induction s with
  | nil => intro k; simp [scanRep]
  | cons c rest ih =>
    intro k
    cases k with
    | zero => simp
    | succ k => simpa [scanRep] using ih k

theorem countOccAux_skip (pat : List Char) :
    ∀ (s : List Char) (k : Nat), countOccAux pat s k = countOccAux pat (s.drop k) 0 := by
  intro s
  induction s with
  | nil => intro k; simp [countOccAux]
  | cons c rest ih =>
    intro k
    cases k with
    | zero => simp
    | succ k => simpa [countOccAux] using ih k

theorem scanRep_of_countOcc_zero (pat rep : List Char) :
    ∀ s : List Char, countOccAux pat s 0 = 0 → scanRep pat rep s 0 = s := by
  intro s
  induction s with
  | nil => intro _; simp [scanRep]
  | cons c rest ih =>
    intro h
    by_cases hpre : listPrefix pat (c :: rest) = true
    · simp [countOccAux, hpre] at h
    · simp only [Bool.not_eq_true] at hpre
      simp only [countOccAux, hpre, Bool.false_eq_true, if_false] at h
      simp [scanRep, hpre, ih h]

theorem countOcc_one_split (pat rep : List Char) (hp : pat ≠ []) :
    ∀ s : List Char, countOccAux pat s 0 = 1 →
      ∃ pre post : List Char, s = pre ++ pat ++ post ∧
        scanRep pat rep s 0 = pre ++ rep ++ post ∧ countOccAux pat post 0 = 0 := by
  intro s
  induction s with
  | nil => intro h; simp [countOccAux] at h
  | cons c rest ih =>
    intro h
    by_cases hpre : listPrefix pat (c :: rest) = true
    · have hcnt : countOccAux pat rest (pat.length - 1) = 0 := by
        simp only [countOccAux, hpre, if_true] at h
        omega
      obtain ⟨a, as, hpat⟩ := List.exists_cons_of_ne_nil hp
      have hdrop : (c :: rest).drop pat.length = rest.drop (pat.length - 1) := by
        subst hpat; simp
      refine ⟨[], rest.drop (pat.length - 1), ?_, ?_, ?_⟩
      · have := listPrefix_eq_append pat (c :: rest) hpre
        simpa [hdrop] using this
      · have h0 : countOccAux pat (rest.drop (pat.length - 1)) 0 = 0 := by
          rw [countOccAux_skip] at hcnt; exact hcnt
        simp only [scanRep, hpre, if_true, List.nil_append]
        rw [scanRep_skip]
        rw [scanRep_of_countOcc_zero pat rep _ h0]
      · rw [countOccAux_skip] at hcnt; exact hcnt
    · simp only [Bool.not_eq_true] at hpre
      simp only [countOccAux, hpre, Bool.false_eq_true, if_false] at h
      obtain ⟨pre, post, h1, h2, h3⟩ := ih h
      refine ⟨c :: pre, post, by simp [h1], ?_, h3⟩
      simp [scanRep, hpre, h2]

theorem jsReplaceAll_of_countOcc_zero (s pat rep : String)
    (hp : pat.data ≠ []) (h : countOcc pat s = 0) : jsReplaceAll s pat rep = s := by
  unfold jsReplaceAll
  rw [if_neg (by simpa using hp)]
  rw [scanRep_of_countOcc_zero pat.data rep.data s.data h]

theorem jsReplaceAll_of_countOcc_one (s pat rep : String)
    (hp : pat.data ≠ []) (h : countOcc pat s = 1) :
    ∃ pre post : List Char, s.data = pre ++ pat.data ++ post ∧
      (jsReplaceAll s pat rep).data = pre ++ rep.data ++ post ∧
      countOccAux pat.data post 0 = 0 := by
  obtain ⟨pre, post, h1, h2, h3⟩ := countOcc_one_split pat.data rep.data hp s.data h
  refine ⟨pre, post, h1, ?_, h3⟩
  unfold jsReplaceAll
  rw [if_neg (by simpa using hp)]
  exact h2

/-! ### Lemmas about the template cache -/

theorem cacheVal_set (c : Cache) (n u x : String) :
    cacheVal (setCache c n u) x = if n = x then some u else cacheVal c x := by
  by_cases h : n = x
  · subst h
    simp [cacheVal, setCache]
  · unfold cacheVal setCache
    rw [List.find?_cons_of_neg _ (by simp [h])]
    rw [if_neg h]

theorem cacheOk_nil (P : PathOps) (env : Env) (fs : Fs) : cacheOk P env fs [] := by
  intro n t h
  simp [cacheVal] at h

theorem cacheOk_set (P : PathOps) (env : Env) (fs : Fs) (c : Cache) (n u : String)
    (h : cacheOk P env fs c) (hu : fs (scaffoldPath P env n) = some u) :
    cacheOk P env fs (setCache c n u) := by
  intro x t hx hne
  rw [cacheVal_set] at hx
  by_cases hnx : n = x
  · rw [if_pos hnx] at hx
    rw [← hnx]
    rw [hu]
    exact congrArg _ (Option.some.inj hx)
  · rw [if_neg hnx] at hx
    exact h x t hx hne

/-- On a consistent cache, `#cachedGenerate` for an existing template file
always succeeds and writes the substitution of the file content, whether the
text came from the cache or from a fresh read. -/
theorem cachedGenerate_fs_some (P : PathOps) (env : Env) (fs : Fs)
    (n o : String) (m : List (String × String)) (c : Cache)
    (h : cacheOk P env fs c) (u : String)
    (hu : fs (scaffoldPath P env n) = some u) :
    ∃ c' r, cachedGenerate P env fs n o m c =
        some (c', ⟨[(o, applyReplace u m)], r, [], []⟩) ∧
      cacheOk P env fs c' := by
  cases hcv : cacheVal c n with
  | none =>
    simp only [cachedGenerate, hcv, hu]
    exact ⟨setCache c n u, [scaffoldPath P env n], rfl, cacheOk_set P env fs c n u h hu⟩
  | some t =>
    by_cases ht : t = ""
    · simp only [cachedGenerate, hcv, if_pos ht, hu]
      exact ⟨setCache c n u, [scaffoldPath P env n], rfl, cacheOk_set P env fs c n u h hu⟩
    · have hft := h n t hcv ht
      rw [hu] at hft
      have hut : u = t := Option.some.inj hft
      simp only [cachedGenerate, hcv, if_neg ht, hut]
      exact ⟨c, [], rfl, h⟩

/-- On a consistent cache, `#cachedGenerate` for a missing template file
always fails. -/
theorem cachedGenerate_fs_none (P : PathOps) (env : Env) (fs : Fs)
    (n o : String) (m : List (String × String)) (c : Cache)
    (h : cacheOk P env fs c) (hu : fs (scaffoldPath P env n) = none) :
    cachedGenerate P env fs n o m c = none := by
  cases hcv : cacheVal c n with
  | none => simp only [cachedGenerate, hcv, hu]
  | some t =>
    by_cases ht : t = ""
    · simp only [cachedGenerate, hcv, if_pos ht, hu]
    · have hft := h n t hcv ht
      rw [hu] at hft
      exact absurd hft (by simp)

/-- Congruence: two consistent caches make `#cachedGenerate` agree on
success, written bytes, directory and copy events (only the read events may
differ), and both resulting caches stay consistent. -/
theorem cachedGenerate_cong (P : PathOps) (env : Env) (fs : Fs)
    (n o : String) (m : List (String × String)) (c₁ c₂ : Cache)
    (h₁ : cacheOk P env fs c₁) (h₂ : cacheOk P env fs c₂)
    (c₁' : Cache) (e₁ : Evts)
    (h : cachedGenerate P env fs n o m c₁ = some (c₁', e₁)) :
    ∃ c₂' e₂, cachedGenerate P env fs n o m c₂ = some (c₂', e₂) ∧
      e₂.writes = e₁.writes ∧ e₂.dirs = e₁.dirs ∧ e₂.copies = e₁.copies ∧
      cacheOk P env fs c₁' ∧ cacheOk P env fs c₂' := by
  cases hu : fs (scaffoldPath P env n) with
  | none =>
    rw [cachedGenerate_fs_none P env fs n o m c₁ h₁ hu] at h
    exact absurd h (by simp)
  | some u =>
    obtain ⟨d₁, r₁, hd₁, hk₁⟩ := cachedGenerate_fs_some P env fs n o m c₁ h₁ u hu
    obtain ⟨d₂, r₂, hd₂, hk₂⟩ := cachedGenerate_fs_some P env fs n o m c₂ h₂ u hu
    rw [hd₁] at h
    obtain ⟨hc, he⟩ := Prod.mk.injEq .. ▸ Option.some.inj h
    refine ⟨d₂, _, hd₂, ?_, ?_, ?_, hc ▸ hk₁, hk₂⟩ <;> rw [← he]

/-- Congruence for `generateHtml`: the written bytes do not depend on which
consistent cache the operation starts from. -/
theorem generateHtml_cong (P : PathOps) (env : Env) (fs : Fs)
    (o smp : String) (hf : Option String) (c₁ c₂ : Cache)
    (h₁ : cacheOk P env fs c₁) (h₂ : cacheOk P env fs c₂)
    (c₁' : Cache) (e₁ : Evts)
    (h : generateHtml P env fs o smp hf c₁ = some (c₁', e₁)) :
    ∃ c₂' e₂, generateHtml P env fs o smp hf c₂ = some (c₂', e₂) ∧
      e₂.writes = e₁.writes ∧ e₂.dirs = e₁.dirs ∧ e₂.copies = e₁.copies ∧
      cacheOk P env fs c₁' ∧ cacheOk P env fs c₂' := by
  cases htr : htmlTruthy hf with
  | true =>
    simp only [generateHtml, htr, if_true] at h ⊢
    cases hcg : copyGenerate fs (hf.getD "") o
        ([(titleToken, env.name), (scriptToken, smp)] ++
          [(bodyClose, injectedBody smp)]) with
    | none =>
      simp only [hcg] at h
      exact absurd h (by simp)
    | some e =>
      simp only [hcg, Option.some.injEq, Prod.mk.injEq] at h ⊢
      obtain ⟨hc, he⟩ := h
      exact ⟨c₂, e, ⟨rfl, rfl⟩, he ▸ rfl, he ▸ rfl, he ▸ rfl, hc ▸ h₁, h₂⟩
  | false =>
    simp only [generateHtml, htr, Bool.false_eq_true, if_false] at h ⊢
    exact cachedGenerate_cong P env fs "index.html" o
      [(titleToken, env.name), (scriptToken, smp)] c₁ c₂ h₁ h₂ c₁' e₁ h

/-- Congruence for `createPageHtml`. -/
theorem createPageHtml_cong (P : PathOps) (env : Env) (fs : Fs)
    (k : ExtensionUIPage) (hf : Option String) (c₁ c₂ : Cache)
    (h₁ : cacheOk P env fs c₁) (h₂ : cacheOk P env fs c₂)
    (c₁' : Cache) (e₁ : Evts)
    (h : createPageHtml P env fs k hf c₁ = some (c₁', e₁)) :
    ∃ c₂' e₂, createPageHtml P env fs k hf c₂ = some (c₂', e₂) ∧
      e₂.writes = e₁.writes ∧ e₂.dirs = e₁.dirs ∧ e₂.copies = e₁.copies ∧
      cacheOk P env fs c₁' ∧ cacheOk P env fs c₂' := by
  exact generateHtml_cong P env fs
    (P.presolve env.dotPlasmoDirectory (pageName k ++ ".html"))
    ("./static/" ++ pageName k ++ env.mountExt) hf c₁ c₂ h₁ h₂ c₁' e₁ h

/-- Congruence for `#initUiPageTemplate`: the returned boolean and the
written bytes do not depend on which consistent cache the run starts from. -/
theorem initUiPageTemplate_cong (P : PathOps) (env : Env) (fs : Fs)
    (k : ExtensionUIPage) (c₁ c₂ : Cache)
    (h₁ : cacheOk P env fs c₁) (h₂ : cacheOk P env fs c₂)
    (b : Bool) (c₁' : Cache) (e₁ : Evts)
    (h : initUiPageTemplate P env fs k c₁ = some (b, c₁', e₁)) :
    ∃ c₂' e₂, initUiPageTemplate P env fs k c₂ = some (b, c₂', e₂) ∧
      e₂.writes = e₁.writes ∧
      cacheOk P env fs c₁' ∧ cacheOk P env fs c₂' := by
  simp only [initUiPageTemplate] at h ⊢
  cases hcg1 : cachedGenerate P env fs ("index" ++ env.mountExt)
      (P.presolve env.staticDirectory (pageName k ++ env.mountExt))
      [(importToken, indexImport P env fs k)] c₁ with
  | none =>
    simp only [hcg1] at h
    exact absurd h (by simp)
  | some pr₁ =>
    obtain ⟨d₁, f₁⟩ := pr₁
    cases hph1 : createPageHtml P env fs k (resolvedHtmlFile env fs k) d₁ with
    | none =>
      simp only [hcg1, hph1] at h
      exact absurd h (by simp)
    | some pr₂ =>
      obtain ⟨d₂, g₁⟩ := pr₂
      simp only [hcg1, hph1, Option.some.injEq, Prod.mk.injEq] at h
      obtain ⟨hb, hc, he⟩ := h
      obtain ⟨d₁', f₂, hcg2, hwf, _, _, hk1, hk2⟩ :=
        cachedGenerate_cong P env fs ("index" ++ env.mountExt)
          (P.presolve env.staticDirectory (pageName k ++ env.mountExt))
          [(importToken, indexImport P env fs k)] c₁ c₂ h₁ h₂ d₁ f₁ hcg1
      obtain ⟨d₂', g₂, hph2, hwg, _, _, hk1', hk2'⟩ :=
        createPageHtml_cong P env fs k (resolvedHtmlFile env fs k)
          d₁ d₁' hk1 hk2 d₂ g₁ hph1
      refine ⟨d₂', (Evts.app (Evts.app ⟨[], [], [env.staticDirectory], []⟩ f₂) g₂), ?_, ?_, hc ▸ hk1', hk2'⟩
      · simp only [hcg2, hph2, hb]
      · simp only [Evts.app, ← he, hwf, hwg]

/-- Congruence for `init`: the four booleans and all written bytes do not
depend on which consistent cache the run starts from. -/
theorem init_cong (P : PathOps) (env : Env) (fs : Fs) (c₁ c₂ : Cache)
    (h₁ : cacheOk P env fs c₁) (h₂ : cacheOk P env fs c₂)
    (bs : List Bool) (c₁' : Cache) (e₁ : Evts)
    (h : init P env fs c₁ = some (bs, c₁', e₁)) :
    ∃ c₂' e₂, init P env fs c₂ = some (bs, c₂', e₂) ∧
      e₂.writes = e₁.writes ∧
      cacheOk P env fs c₁' ∧ cacheOk P env fs c₂' := by
  simp only [init] at h ⊢
  cases hp1 : initUiPageTemplate P env fs ExtensionUIPage.popup c₁ with
  | none =>
    simp only [hp1] at h
    exact absurd h (by simp)
  | some pr₁ =>
    obtain ⟨b1, d1, f1⟩ := pr₁
    cases hp2 : initUiPageTemplate P env fs ExtensionUIPage.options d1 with
    | none =>
      simp only [hp1, hp2] at h
      exact absurd h (by simp)
    | some pr₂ =>
      obtain ⟨b2, d2, f2⟩ := pr₂
      cases hp3 : initUiPageTemplate P env fs ExtensionUIPage.newtab d2 with
      | none =>
        simp only [hp1, hp2, hp3] at h
        exact absurd h (by simp)
      | some pr₃ =>
        obtain ⟨b3, d3, f3⟩ := pr₃
        cases hp4 : initUiPageTemplate P env fs ExtensionUIPage.devtools d3 with
        | none =>
          simp only [hp1, hp2, hp3, hp4] at h
          exact absurd h (by simp)
        | some pr₄ =>
          obtain ⟨b4, d4, f4⟩ := pr₄
          simp only [hp1, hp2, hp3, hp4, Option.some.injEq, Prod.mk.injEq] at h
          obtain ⟨hbs, hc, he⟩ := h
          obtain ⟨d1', g1, hq1, hw1, hk1, hk1'⟩ :=
            initUiPageTemplate_cong P env fs ExtensionUIPage.popup c₁ c₂ h₁ h₂ b1 d1 f1 hp1
          obtain ⟨d2', g2, hq2, hw2, hk2, hk2'⟩ :=
            initUiPageTemplate_cong P env fs ExtensionUIPage.options d1 d1' hk1 hk1' b2 d2 f2 hp2
          obtain ⟨d3', g3, hq3, hw3, hk3, hk3'⟩ :=
            initUiPageTemplate_cong P env fs ExtensionUIPage.newtab d2 d2' hk2 hk2' b3 d3 f3 hp3
          obtain ⟨d4', g4, hq4, hw4, hk4, hk4'⟩ :=
            initUiPageTemplate_cong P env fs ExtensionUIPage.devtools d3 d3' hk3 hk3' b4 d4 f4 hp4
          refine ⟨d4', ((((copyStaticCommon P env).app g1).app g2).app g3).app g4, ?_, ?_, hc ▸ hk4, hk4'⟩
          · simp only [hq1, hq2, hq3, hq4, hbs]
          · simp only [Evts.app, copyStaticCommon, ← he, hw1, hw2, hw3, hw4]

/-! ### Shape lemmas: what each operation writes when it succeeds -/

/-- A successful `#cachedGenerate` performs exactly one write, at the output
path, of a substitution instance of some template text. -/
theorem cachedGenerate_shape (P : PathOps) (env : Env) (fs : Fs)
    (n o : String) (m : List (String × String)) (c : Cache)
    (c' : Cache) (e : Evts)
    (h : cachedGenerate P env fs n o m c = some (c', e)) :
    ∃ t r, e = ⟨[(o, applyReplace t m)], r, [], []⟩ := by
  unfold cachedGenerate at h
  cases hcv : cacheVal c n with
  | none =>
    simp only [hcv] at h
    cases hu : fs (scaffoldPath P env n) with
    | none =>
      simp only [hu] at h
      exact absurd h (by simp)
    | some u =>
      simp only [hu, Option.some.injEq, Prod.mk.injEq] at h
      exact ⟨u, [scaffoldPath P env n], h.2.symm⟩
  | some t =>
    by_cases ht : t = ""
    · simp only [hcv, if_pos ht] at h
      cases hu : fs (scaffoldPath P env n) with
      | none =>
        simp only [hu] at h
        exact absurd h (by simp)
      | some u =>
        simp only [hu, Option.some.injEq, Prod.mk.injEq] at h
        exact ⟨u, [scaffoldPath P env n], h.2.symm⟩
    · simp only [hcv, if_neg ht, Option.some.injEq, Prod.mk.injEq] at h
      exact ⟨t, [], h.2.symm⟩

/-- A successful `generateHtml` performs exactly one write, at the output
path. -/
theorem generateHtml_shape (P : PathOps) (env : Env) (fs : Fs)
    (o smp : String) (hf : Option String) (c : Cache)
    (c' : Cache) (e : Evts)
    (h : generateHtml P env fs o smp hf c = some (c', e)) :
    ∃ w r, e = ⟨[(o, w)], r, [], []⟩ := by
  cases htr : htmlTruthy hf with
  | true =>
    simp only [generateHtml, htr, if_true] at h
    cases hu : fs (hf.getD "") with
    | none =>
      simp only [copyGenerate, hu] at h
      exact absurd h (by simp)
    | some t =>
      simp only [copyGenerate, hu, Option.some.injEq, Prod.mk.injEq] at h
      exact ⟨applyReplace t ([(titleToken, env.name), (scriptToken, smp)] ++
        [(bodyClose, injectedBody smp)]), [hf.getD ""], h.2.symm⟩
  | false =>
    simp only [generateHtml, htr, Bool.false_eq_true, if_false] at h
    obtain ⟨t, r, ht⟩ := cachedGenerate_shape P env fs "index.html" o
      [(titleToken, env.name), (scriptToken, smp)] c c' e h
    exact ⟨applyReplace t [(titleToken, env.name), (scriptToken, smp)], r, ht⟩

/-- A successful `generateHtml` with a falsy `htmlFile` writes a
substitution instance of the built-in `index.html` template with exactly the
title and script replacements. -/
theorem generateHtml_falsy_shape (P : PathOps) (env : Env) (fs : Fs)
    (o smp : String) (hf : Option String) (c : Cache)
    (c' : Cache) (e : Evts)
    (htr : htmlTruthy hf = false)
    (h : generateHtml P env fs o smp hf c = some (c', e)) :
    ∃ t r, e = ⟨[(o, applyReplace t [(titleToken, env.name), (scriptToken, smp)])], r, [], []⟩ := by
  simp only [generateHtml, htr, Bool.false_eq_true, if_false] at h
  exact cachedGenerate_shape P env fs "index.html" o
    [(titleToken, env.name), (scriptToken, smp)] c c' e h

/-! ### Lemmas about candidate resolution (`find?`) -/

/-- A candidate that exists, all of whose predecessors in the list do not,
is the one `find?` returns. -/
theorem find_first (p : String → Bool) :
    ∀ (pre : List String) (f : String) (post : List String), p f = true →
      (∀ g ∈ pre, p g = false) → (pre ++ f :: post).find? p = some f := by
  intro pre
  induction pre with
  | nil =>
    intro f post hf _
    simp [List.find?_cons_of_pos, hf]
  | cons a as ih =>
    intro f post hf hpre
    have ha : p a = false := hpre a (by simp)
    rw [List.cons_append, List.find?_cons_of_neg _ (by simp [ha])]
    exact ih f post hf (fun g hg => hpre g (by simp [hg]))

/-! ### Claim theorems -/

/-- C3: `#generate` substitution applies each (token, value) pair in
map-iteration order, each step replacing all occurrences in the current,
already partially substituted text (a left fold of replace-all): on
`"XY"` the map `X to Y, Y to Z` yields `"ZZ"` (cumulative sequential
semantics) and differs from the simultaneous-replacement semantics computed
from the original text, which yields `"YZ"`; on `"X and Y"` the map
`X to 1, Y to 2` yields `"1 and 2"`; and substitution by a concatenated map
is the composition of the substitutions, the later entries seeing the
earlier entries' output. -/
theorem c3_substitution_sequential :
    applyReplace "XY" [("X", "Y"), ("Y", "Z")] = "ZZ" ∧
    applyReplace "X and Y" [("X", "1"), ("Y", "2")] = "1 and 2" ∧
    simultaneousApply "XY" [("X", "Y"), ("Y", "Z")] = "YZ" ∧
    applyReplace "XY" [("X", "Y"), ("Y", "Z")] ≠
      simultaneousApply "XY" [("X", "Y"), ("Y", "Z")] ∧
    ∀ (t : String) (m₁ m₂ : List (String × String)),
      applyReplace t (m₁ ++ m₂) = applyReplace (applyReplace t m₁) m₂ := by
  refine ⟨rfl, rfl, rfl, by decide, ?_⟩
  intro t m₁ m₂
  simp [applyReplace, List.foldl_append]

/-- C4: the resolved index module of a page kind is the first candidate in
list order for which a file exists (none when no candidate exists), and
the import token embedded in the mount script is the resolved module path made
relative to the static directory in forward-slash form when a module
resolved, and the synthetic alias tilde-pageKind otherwise. -/
theorem c4_resolver_precedence (P : PathOps) (env : Env) (fs : Fs)
    (k : ExtensionUIPage) :
    (∀ pre f post, env.indexList k = pre ++ f :: post → fexists fs f = true →
      (∀ g ∈ pre, fexists fs g = false) →
      resolvedIndexModule env fs k = some f ∧
        indexImport P env fs k = toPosix (P.prelative env.staticDirectory f)) ∧
    ((∀ g ∈ env.indexList k, fexists fs g = false) →
      resolvedIndexModule env fs k = none ∧
        indexImport P env fs k = "~" ++ pageName k) := by
  constructor
  · intro pre f post hsplit hf hpre
    have hres : resolvedIndexModule env fs k = some f := by
      unfold resolvedIndexModule
      rw [hsplit]
      exact find_first (fexists fs) pre f post hf hpre
    refine ⟨hres, ?_⟩
    unfold indexImport
    rw [hres]
  · intro hall
    have hres : resolvedIndexModule env fs k = none := by
      unfold resolvedIndexModule
      rw [List.find?_eq_none]
      intro x hx
      simp [hall x hx]
    refine ⟨hres, ?_⟩
    unfold indexImport
    rw [hres]

/-- Witness for C4 at the three spec scenarios: both of `[A, B]` exist so
`A` wins; only the second of `[miss, B]` exists so `B` wins; no candidate
of `[miss]` exists so the synthetic alias is used. -/
theorem c4_resolver_precedence_witness :
    (resolvedIndexModule envC4 fsC4 ExtensionUIPage.popup = some "A" ∧
      indexImport pathsFix envC4 fsC4 ExtensionUIPage.popup =
        toPosix (pathsFix.prelative envC4.staticDirectory "A")) ∧
    (resolvedIndexModule envC4 fsC4 ExtensionUIPage.options = some "B" ∧
      indexImport pathsFix envC4 fsC4 ExtensionUIPage.options =
        toPosix (pathsFix.prelative envC4.staticDirectory "B")) ∧
    (resolvedIndexModule envC4 fsC4 ExtensionUIPage.devtools = none ∧
      indexImport pathsFix envC4 fsC4 ExtensionUIPage.devtools =
        "~" ++ pageName ExtensionUIPage.devtools) := by
  refine ⟨?_, ?_, ?_⟩
  · exact (c4_resolver_precedence pathsFix envC4 fsC4 ExtensionUIPage.popup).1
      [] "A" ["B"] rfl (by decide) (by simp)
  · exact (c4_resolver_precedence pathsFix envC4 fsC4 ExtensionUIPage.options).1
      ["miss"] "B" [] rfl (by decide) (by decide)
  · exact (c4_resolver_precedence pathsFix envC4 fsC4 ExtensionUIPage.devtools).2
      (by decide)

/-- C10: `generateHtml` with `htmlFile` equal to the empty string, or
omitted (`none`, also standing for the literal `false`), takes the
built-in-template branch, identical to having no user HTML file; the
copy-and-inject branch is taken exactly for non-empty string values. -/
theorem c10_empty_html_file (P : PathOps) (env : Env) (fs : Fs)
    (out smp : String) (c : Cache) :
    generateHtml P env fs out smp (some "") c =
      cachedGenerate P env fs "index.html" out
        [(titleToken, env.name), (scriptToken, smp)] c ∧
    generateHtml P env fs out smp none c =
      cachedGenerate P env fs "index.html" out
        [(titleToken, env.name), (scriptToken, smp)] c ∧
    ∀ s : String, s ≠ "" →
      generateHtml P env fs out smp (some s) c =
        (copyGenerate fs s out [(titleToken, env.name), (scriptToken, smp),
          (bodyClose, injectedBody smp)]).map (fun e => (c, e)) := by
  refine ⟨rfl, rfl, ?_⟩
  intro s hs
  have htr : htmlTruthy (some s) = true := by simp [htmlTruthy, hs]
  simp only [generateHtml, htr, if_true, Option.getD, List.cons_append,
    List.nil_append]
  cases hcg : copyGenerate fs s out [(titleToken, env.name),
      (scriptToken, smp), (bodyClose, injectedBody smp)] with
  | none => simp [hcg]
  | some e => simp [hcg]

/-- Witness for C10 at concrete inputs, the non-empty branch applied at a
user HTML file name. -/
theorem c10_empty_html_file_witness :
    (generateHtml pathsFix baseEnv fsTemplates "o" "sm" (some "") [] =
      cachedGenerate pathsFix baseEnv fsTemplates "index.html" "o"
        [(titleToken, baseEnv.name), (scriptToken, "sm")] []) ∧
    ("u.html" : String) ≠ "" ∧
    generateHtml pathsFix baseEnv fsTemplates "o" "sm" (some "u.html") [] =
      (copyGenerate fsTemplates "u.html" "o" [(titleToken, baseEnv.name),
        (scriptToken, "sm"), (bodyClose, injectedBody "sm")]).map
          (fun e => (([] : Cache), e)) := by
  have h := c10_empty_html_file pathsFix baseEnv fsTemplates "o" "sm" []
  exact ⟨h.1, by decide, h.2.2 "u.html" (by decide)⟩

/-- C2 (amended): once a load of a template has completed, the cache holds
an entry for it, and as long as the stored text is non-empty, every
subsequent load of the same template returns the cached text and performs no
filesystem read; the amendment excludes the empty stored text, which the JS
truthiness test `if (!cache[fileName])` treats as absent and re-reads
(see the counterexample). -/
theorem c2_cache_no_reread (P : PathOps) (env : Env) (fs : Fs)
    (n o₁ : String) (m₁ : List (String × String)) (c c₁ : Cache) (e₁ : Evts)
    (h : cachedGenerate P env fs n o₁ m₁ c = some (c₁, e₁)) :
    (∃ t, cacheVal c₁ n = some t) ∧
    (∀ t, cacheVal c₁ n = some t → t ≠ "" →
      ∀ o₂ m₂, cachedGenerate P env fs n o₂ m₂ c₁ =
        some (c₁, ⟨[(o₂, applyReplace t m₂)], [], [], []⟩)) := by
  constructor
  · unfold cachedGenerate at h
    cases hcv : cacheVal c n with
    | none =>
      simp only [hcv] at h
      cases hu : fs (scaffoldPath P env n) with
      | none =>
        simp only [hu] at h
        exact absurd h (by simp)
      | some u =>
        simp only [hu, Option.some.injEq, Prod.mk.injEq] at h
        refine ⟨u, ?_⟩
        rw [← h.1, cacheVal_set]
        simp
    | some t =>
      by_cases ht : t = ""
      · simp only [hcv, if_pos ht] at h
        cases hu : fs (scaffoldPath P env n) with
        | none =>
          simp only [hu] at h
          exact absurd h (by simp)
        | some u =>
          simp only [hu, Option.some.injEq, Prod.mk.injEq] at h
          refine ⟨u, ?_⟩
          rw [← h.1, cacheVal_set]
          simp
      · simp only [hcv, if_neg ht, Option.some.injEq, Prod.mk.injEq] at h
        exact ⟨t, h.1 ▸ hcv⟩
  · intro t hct htne o₂ m₂
    simp only [cachedGenerate, hct, if_neg htne]

/-- Witness for C2: a first load of `tpl.txt` populates the cache, after
which a second load writes from the cache and performs no read. -/
theorem c2_cache_no_reread_witness :
    (cachedGenerate pathsFix baseEnv fsC2w "tpl.txt" "o1" [] [] =
      some ([("tpl.txt", "hello")],
        ⟨[("o1", "hello")], ["T/tpl.txt"], [], []⟩)) ∧
    cachedGenerate pathsFix baseEnv fsC2w "tpl.txt" "o2" [] [("tpl.txt", "hello")] =
      some ([("tpl.txt", "hello")], ⟨[("o2", "hello")], [], [], []⟩) := by
  refine ⟨rfl, ?_⟩
  have h := c2_cache_no_reread pathsFix baseEnv fsC2w "tpl.txt" "o1" []
    [] [("tpl.txt", "hello")] ⟨[("o1", "hello")], ["T/tpl.txt"], [], []⟩ rfl
  exact h.2 "hello" rfl (by decide) "o2" []

/-- Counterexample to C2 as stated: with a template file whose content is
the empty string, the first load completes and stores the text in the
cache, yet the second load reads the underlying template file again,
because the JS truthiness check treats the cached empty string as a cache
miss. -/
theorem c2_counterexample :
    (cachedGenerate pathsFix baseEnv fsC2x "empty.tpl" "o1" [] [] =
      some ([("empty.tpl", "")], ⟨[("o1", "")], ["T/empty.tpl"], [], []⟩)) ∧
    ¬ (∀ c₂ e₂, cachedGenerate pathsFix baseEnv fsC2x "empty.tpl" "o2" []
        [("empty.tpl", "")] = some (c₂, e₂) → e₂.reads = []) := by
  refine ⟨rfl, ?_⟩
  intro hall
  have h := hall [("empty.tpl", ""), ("empty.tpl", "")]
    ⟨[("o2", "")], ["T/empty.tpl"], [], []⟩ rfl
  simp at h

/-- C5 (amended): for source HTML containing exactly one closing-body
marker and no occurrence of the title or script placeholder tokens, the
generated HTML is exactly the source with the root-mount element and the
module script tag referencing the mount path inserted immediately before
the marker, every other byte preserved; the amendment adds token-freedom of
the source, because the title/script replacements run over the user HTML
before the structural injection (see the counterexample). -/
theorem c5_html_injection (P : PathOps) (env : Env) (fs : Fs) (c : Cache)
    (outputPath smp hpath src : String)
    (hne : hpath ≠ "") (hsrc : fs hpath = some src)
    (ht : countOcc titleToken src = 0) (hs : countOcc scriptToken src = 0)
    (hone : countOcc bodyClose src = 1) :
    ∃ pre post : List Char,
      src.data = pre ++ bodyClose.data ++ post ∧
      generateHtml P env fs outputPath smp (some hpath) c =
        some (c, ⟨[(outputPath,
          String.mk (pre ++ (injectPrefix smp).data ++ bodyClose.data ++ post))],
          [hpath], [], []⟩) := by
  have htr : htmlTruthy (some hpath) = true := by simp [htmlTruthy, hne]
  have e1 : jsReplaceAll src titleToken env.name = src :=
    jsReplaceAll_of_countOcc_zero src titleToken env.name (by decide) ht
  have e2 : jsReplaceAll src scriptToken smp = src :=
    jsReplaceAll_of_countOcc_zero src scriptToken smp (by decide) hs
  obtain ⟨pre, post, hsp, hrep, _⟩ :=
    jsReplaceAll_of_countOcc_one src bodyClose (injectedBody smp) (by decide) hone
  refine ⟨pre, post, hsp, ?_⟩
  simp only [generateHtml, htr, if_true, copyGenerate, Option.getD, hsrc]
  have hsubst : applyReplace src ([(titleToken, env.name), (scriptToken, smp)] ++
      [(bodyClose, injectedBody smp)]) = jsReplaceAll src bodyClose (injectedBody smp) := by
    simp [applyReplace, e1, e2]
  have hstr : jsReplaceAll src bodyClose (injectedBody smp) =
      String.mk (pre ++ (injectPrefix smp).data ++ bodyClose.data ++ post) := by
    apply String.ext
    rw [hrep]
    simp [injectedBody, String.data_append, List.append_assoc]
  rw [hsubst, hstr]

/-- Witness for C5: a user HTML file `<body>k</body>` with a single marker
and no tokens; the generated file inserts the mount point before the
marker. -/
theorem c5_html_injection_witness :
    ("user.html" : String) ≠ "" ∧
    fsC5w "user.html" = some "<body>k</body>" ∧
    countOcc titleToken "<body>k</body>" = 0 ∧
    countOcc scriptToken "<body>k</body>" = 0 ∧
    countOcc bodyClose "<body>k</body>" = 1 ∧
    (∃ pre post : List Char,
      ("<body>k</body>" : String).data = pre ++ bodyClose.data ++ post ∧
      generateHtml pathsFix baseEnv fsC5w "o" "S" (some "user.html") [] =
        some ([], ⟨[("o",
          String.mk (pre ++ (injectPrefix "S").data ++ bodyClose.data ++ post))],
          ["user.html"], [], []⟩)) := by
  refine ⟨by decide, rfl, by decide, by decide, by decide, ?_⟩
  exact c5_html_injection pathsFix baseEnv fsC5w [] "o" "S" "user.html"
    "<body>k</body>" (by decide) rfl (by decide) (by decide) (by decide)

/-- Counterexample to C5 as stated: the source HTML
`__plasmo_static_script__</body>` contains exactly one closing-body marker,
yet the generated HTML does not preserve the other bytes of the original:
the script-token bytes before the marker are replaced by the mount path
before the structural injection runs. -/
theorem c5_counterexample :
    countOcc bodyClose "__plasmo_static_script__</body>" = 1 ∧
    generateHtml pathsFix baseEnv fsC5x "o" "S" (some "user.html") [] =
      some ([], ⟨[("o",
        "S<div id=\"root\"></div><script src=\"S\" type=\"module\"></script></body>")],
        ["user.html"], [], []⟩) ∧
    ("S<div id=\"root\"></div><script src=\"S\" type=\"module\"></script></body>" : String) ≠
      "__plasmo_static_script__<div id=\"root\"></div><script src=\"S\" type=\"module\"></script></body>" := by
  refine ⟨by decide, rfl, by decide⟩

/-- C6 (amended): when the text obtained from the source HTML by applying
the title and script replacements contains no closing-body marker, HTML
generation succeeds and performs no mount-point injection: the output is
exactly the source with only those two replacements applied; the amendment
conditions on the token-replaced text rather than the raw source, because a
replacement can itself assemble a marker (see the counterexample). -/
theorem c6_missing_marker (P : PathOps) (env : Env) (fs : Fs) (c : Cache)
    (outputPath smp hpath src : String)
    (hne : hpath ≠ "") (hsrc : fs hpath = some src)
    (h0 : countOcc bodyClose
      (applyReplace src [(titleToken, env.name), (scriptToken, smp)]) = 0) :
    generateHtml P env fs outputPath smp (some hpath) c =
      some (c, ⟨[(outputPath,
        applyReplace src [(titleToken, env.name), (scriptToken, smp)])],
        [hpath], [], []⟩) := by
  have htr : htmlTruthy (some hpath) = true := by simp [htmlTruthy, hne]
  simp only [generateHtml, htr, if_true, copyGenerate, Option.getD, hsrc]
  have hsubst : applyReplace src ([(titleToken, env.name), (scriptToken, smp)] ++
      [(bodyClose, injectedBody smp)]) =
      applyReplace src [(titleToken, env.name), (scriptToken, smp)] := by
    rw [applyReplace, List.foldl_append]
    exact jsReplaceAll_of_countOcc_zero _ bodyClose (injectedBody smp) (by decide) h0
  rw [hsubst]

/-- Witness for C6: a marker-free, token-free user HTML file is copied
through unchanged. -/
theorem c6_missing_marker_witness :
    ("user.html" : String) ≠ "" ∧
    fsC6w "user.html" = some "<p>x</p>" ∧
    countOcc bodyClose
      (applyReplace "<p>x</p>" [(titleToken, baseEnv.name), (scriptToken, "sm")]) = 0 ∧
    generateHtml pathsFix baseEnv fsC6w "o" "sm" (some "user.html") [] =
      some ([], ⟨[("o",
        applyReplace "<p>x</p>" [(titleToken, baseEnv.name), (scriptToken, "sm")])],
        ["user.html"], [], []⟩) := by
  refine ⟨by decide, rfl, by decide, ?_⟩
  exact c6_missing_marker pathsFix baseEnv fsC6w [] "o" "sm" "user.html"
    "<p>x</p>" (by decide) rfl (by decide)

/-- Counterexample to C6 as stated: the source HTML
`a</bod__plasmo_static_script__y>` contains no closing-body marker, yet with
an empty mount path the script replacement assembles `a</body>`, the
injection then fires, and the output differs from the source with only the
two token replacements applied. -/
theorem c6_counterexample :
    countOcc bodyClose "a</bod__plasmo_static_script__y>" = 0 ∧
    generateHtml pathsFix baseEnv fsC6x "o" "" (some "user.html") [] =
      some ([], ⟨[("o",
        "a<div id=\"root\"></div><script src=\"\" type=\"module\"></script></body>")],
        ["user.html"], [], []⟩) ∧
    ("a<div id=\"root\"></div><script src=\"\" type=\"module\"></script></body>" : String) ≠
      applyReplace "a</bod__plasmo_static_script__y>"
        [(titleToken, baseEnv.name), (scriptToken, "")] := by
  refine ⟨by decide, rfl, by decide⟩

/-- C7: for every module descriptor, when its extension is recognized as a
UI-framework extension `createPageMount` produces exactly two output files —
a mount script at the mirrored output directory named base-name plus mount
extension, instantiated with the synthetic alias of the joined directory and
base name, and an HTML document whose script tag points at the relative
generated-script path — and when the extension is not recognized it produces
exactly one output file, an HTML document whose script tag is the synthetic
alias plus the original extension; in both cases the returned value is the
HTML output path. -/
theorem c7_page_mount_dispatch (P : PathOps) (env : Env) (fs : Fs)
    (uiExt : String → Bool) (module : ParsedPath) (c : Cache)
    (r : String) (c' : Cache) (e : Evts)
    (h : createPageMount P env fs uiExt module c = some (r, c', e)) :
    r = P.presolve (P.presolve env.dotPlasmoDirectory module.dir)
      (module.name ++ ".html") ∧
    e.dirs = [P.presolve env.dotPlasmoDirectory module.dir] ∧
    (uiExt module.ext = true → ∃ tIdx tHtml, e.writes =
      [(P.presolve (P.presolve env.dotPlasmoDirectory module.dir)
          (module.name ++ env.mountExt),
        applyReplace tIdx
          [(importToken, "~" ++ toPosix (P.pjoin module.dir module.name))]),
       (P.presolve (P.presolve env.dotPlasmoDirectory module.dir)
          (module.name ++ ".html"),
        applyReplace tHtml [(titleToken, env.name),
          (scriptToken, "./" ++ module.name ++ env.mountExt)])]) ∧
    (uiExt module.ext = false → ∃ tHtml, e.writes =
      [(P.presolve (P.presolve env.dotPlasmoDirectory module.dir)
          (module.name ++ ".html"),
        applyReplace tHtml [(titleToken, env.name),
          (scriptToken,
            "~" ++ toPosix (P.pjoin module.dir module.name) ++ module.ext)])]) := by
  cases hui : uiExt module.ext with
  | true =>
    simp only [createPageMount, hui, if_true] at h
    cases hcg : cachedGenerate P env fs ("index" ++ env.mountExt)
        (P.presolve (P.presolve env.dotPlasmoDirectory module.dir)
          (module.name ++ env.mountExt))
        [(importToken, "~" ++ toPosix (P.pjoin module.dir module.name))] c with
    | none =>
      simp only [hcg] at h
      exact absurd h (by simp)
    | some pr1 =>
      obtain ⟨c1, e1⟩ := pr1
      cases hgh : generateHtml P env fs
          (P.presolve (P.presolve env.dotPlasmoDirectory module.dir)
            (module.name ++ ".html"))
          ("./" ++ module.name ++ env.mountExt) none c1 with
      | none =>
        simp only [hcg, hgh] at h
        exact absurd h (by simp)
      | some pr2 =>
        obtain ⟨c2, e2⟩ := pr2
        simp only [hcg, hgh, Option.some.injEq, Prod.mk.injEq] at h
        obtain ⟨hr, _, he⟩ := h
        obtain ⟨t1, r1, he1⟩ := cachedGenerate_shape P env fs _ _ _ c c1 e1 hcg
        obtain ⟨t2, r2, he2⟩ := generateHtml_falsy_shape P env fs _ _ none c1 c2 e2 rfl hgh
        refine ⟨hr.symm, ?_, ?_, ?_⟩
        · simp [← he, Evts.app, he1, he2]
        · intro _
          exact ⟨t1, t2, by simp [← he, Evts.app, he1, he2]⟩
        · intro hfalse
          exact absurd hfalse (by simp)
  | false =>
    simp only [createPageMount, hui, Bool.false_eq_true, if_false] at h
    cases hgh : generateHtml P env fs
        (P.presolve (P.presolve env.dotPlasmoDirectory module.dir)
          (module.name ++ ".html"))
        ("~" ++ toPosix (P.pjoin module.dir module.name) ++ module.ext) none c with
    | none =>
      simp only [hgh] at h
      exact absurd h (by simp)
    | some pr1 =>
      obtain ⟨c1, e1⟩ := pr1
      simp only [hgh, Option.some.injEq, Prod.mk.injEq] at h
      obtain ⟨hr, _, he⟩ := h
      obtain ⟨t1, r1, he1⟩ := generateHtml_falsy_shape P env fs _ _ none c c1 e1 rfl hgh
      refine ⟨hr.symm, ?_, ?_, ?_⟩
      · simp [← he, Evts.app, he1]
      · intro htrue
        exact absurd htrue (by simp)
      · intro _
        exact ⟨t1, by simp [← he, Evts.app, he1]⟩

/-- Witness for C7 at the recognized-extension instance: a `.tsx` module
produces the mount script and HTML pair. -/
theorem c7_page_mount_dispatch_witness :
    (createPageMount pathsFix baseEnv fsTemplates uiExtFix
      ⟨"tabs", "main", ".tsx"⟩ [] =
      some ("DP/tabs/main.html", cacheFull, evtsC7ui)) ∧
    ("DP/tabs/main.html" : String) =
      pathsFix.presolve (pathsFix.presolve baseEnv.dotPlasmoDirectory "tabs")
        ("main" ++ ".html") ∧
    (∃ tIdx tHtml, evtsC7ui.writes =
      [(pathsFix.presolve (pathsFix.presolve baseEnv.dotPlasmoDirectory "tabs")
          ("main" ++ baseEnv.mountExt),
        applyReplace tIdx
          [(importToken, "~" ++ toPosix (pathsFix.pjoin "tabs" "main"))]),
       (pathsFix.presolve (pathsFix.presolve baseEnv.dotPlasmoDirectory "tabs")
          ("main" ++ ".html"),
        applyReplace tHtml [(titleToken, baseEnv.name),
          (scriptToken, "./" ++ "main" ++ baseEnv.mountExt)])]) := by
  have h := c7_page_mount_dispatch pathsFix baseEnv fsTemplates uiExtFix
    ⟨"tabs", "main", ".tsx"⟩ [] "DP/tabs/main.html" cacheFull evtsC7ui rfl
  exact ⟨rfl, h.1, h.2.2.1 rfl⟩

/-- C8: for every module descriptor, regardless of its extension,
`createContentScriptMount` mirrors the module directory under the
static-output directory, instantiates the dedicated content-script mount
template with the synthetic alias, writes the single mount script there,
returns that path, and produces no HTML file. -/
theorem c8_content_script_mount (P : PathOps) (env : Env) (fs : Fs)
    (module : ParsedPath) (c : Cache) (r : String) (c' : Cache) (e : Evts)
    (h : createContentScriptMount P env fs module c = some (r, c', e)) :
    r = P.presolve (P.presolve env.staticDirectory module.dir)
      (module.name ++ env.mountExt) ∧
    e.dirs = [P.presolve env.staticDirectory module.dir] ∧
    (∃ t, e.writes = [(r, applyReplace t
      [(contentToken, "~" ++ toPosix (P.pjoin module.dir module.name))])]) ∧
    e.copies = [] := by
  simp only [createContentScriptMount] at h
  cases hcg : cachedGenerate P env fs ("content-script-ui-mount" ++ env.mountExt)
      (P.presolve (P.presolve env.staticDirectory module.dir)
        (module.name ++ env.mountExt))
      [(contentToken, "~" ++ toPosix (P.pjoin module.dir module.name))] c with
  | none =>
    simp only [hcg] at h
    exact absurd h (by simp)
  | some pr1 =>
    obtain ⟨c1, e1⟩ := pr1
    simp only [hcg, Option.some.injEq, Prod.mk.injEq] at h
    obtain ⟨hr, _, he⟩ := h
    obtain ⟨t1, r1, he1⟩ := cachedGenerate_shape P env fs _ _ _ c c1 e1 hcg
    refine ⟨hr.symm, ?_, ?_, ?_⟩
    · simp [← he, Evts.app, he1]
    · exact ⟨t1, by simp [← he, Evts.app, he1, hr]⟩
    · simp [← he, Evts.app, he1]

/-- Witness for C8 at a concrete content-script module. -/
theorem c8_content_script_mount_witness :
    (createContentScriptMount pathsFix baseEnv fsTemplates
      ⟨"cs", "overlay", ".tsx"⟩ [] =
      some ("SD/cs/overlay.tsx",
        [("content-script-ui-mount.tsx", "C __plasmo_mount_content_script__")],
        evtsC8)) ∧
    ("SD/cs/overlay.tsx" : String) =
      pathsFix.presolve (pathsFix.presolve baseEnv.staticDirectory "cs")
        ("overlay" ++ baseEnv.mountExt) ∧
    (∃ t, evtsC8.writes = [("SD/cs/overlay.tsx", applyReplace t
      [(contentToken, "~" ++ toPosix (pathsFix.pjoin "cs" "overlay"))])]) ∧
    evtsC8.copies = [] := by
  have h := c8_content_script_mount pathsFix baseEnv fsTemplates
    ⟨"cs", "overlay", ".tsx"⟩ []
    "SD/cs/overlay.tsx"
    [("content-script-ui-mount.tsx", "C __plasmo_mount_content_script__")]
    evtsC8 rfl
  exact ⟨rfl, h.1, h.2.2.1, h.2.2.2⟩

/-- A successful `#initUiPageTemplate` returns the index-resolution boolean
of its page kind, performs no copy, and writes exactly the page mount script
and the page HTML, in that order. -/
theorem initUiPageTemplate_shape (P : PathOps) (env : Env) (fs : Fs)
    (k : ExtensionUIPage) (c : Cache) (b : Bool) (c' : Cache) (e : Evts)
    (h : initUiPageTemplate P env fs k c = some (b, c', e)) :
    b = (resolvedIndexModule env fs k).isSome ∧
    e.copies = [] ∧
    e.writes.map Prod.fst =
      [P.presolve env.staticDirectory (pageName k ++ env.mountExt),
       P.presolve env.dotPlasmoDirectory (pageName k ++ ".html")] := by
  simp only [initUiPageTemplate] at h
  cases hcg : cachedGenerate P env fs ("index" ++ env.mountExt)
      (P.presolve env.staticDirectory (pageName k ++ env.mountExt))
      [(importToken, indexImport P env fs k)] c with
  | none =>
    simp only [hcg] at h
    exact absurd h (by simp)
  | some pr1 =>
    obtain ⟨c1, e1⟩ := pr1
    cases hph : createPageHtml P env fs k (resolvedHtmlFile env fs k) c1 with
    | none =>
      simp only [hcg, hph] at h
      exact absurd h (by simp)
    | some pr2 =>
      obtain ⟨c2, e2⟩ := pr2
      simp only [hcg, hph, Option.some.injEq, Prod.mk.injEq] at h
      obtain ⟨hb, _, he⟩ := h
      obtain ⟨t1, r1, he1⟩ := cachedGenerate_shape P env fs _ _ _ c c1 e1 hcg
      have hph' : generateHtml P env fs
          (P.presolve env.dotPlasmoDirectory (pageName k ++ ".html"))
          ("./static/" ++ pageName k ++ env.mountExt)
          (resolvedHtmlFile env fs k) c1 = some (c2, e2) := hph
      obtain ⟨w2, r2, he2⟩ := generateHtml_shape P env fs _ _ _ c1 c2 e2 hph'
      refine ⟨hb.symm, ?_, ?_⟩
      · simp [← he, Evts.app, he1, he2]
      · simp [← he, Evts.app, he1, he2]

/-- C1 (amended): a successful `init` performs the static-asset copy and all
four canonical page generations, and returns one boolean per page kind
stating whether a user index module was found — but ordered by the
`Promise.all` array order popup, options, newtab, devtools (the claim
stated devtools before newtab; the counterexample separates them). -/
theorem c1_init_order (P : PathOps) (env : Env) (fs : Fs) (c : Cache)
    (bs : List Bool) (c' : Cache) (e : Evts)
    (h : init P env fs c = some (bs, c', e)) :
    bs = [(resolvedIndexModule env fs ExtensionUIPage.popup).isSome,
          (resolvedIndexModule env fs ExtensionUIPage.options).isSome,
          (resolvedIndexModule env fs ExtensionUIPage.newtab).isSome,
          (resolvedIndexModule env fs ExtensionUIPage.devtools).isSome] ∧
    e.copies = [(P.presolve env.staticTemplatePath "common",
      P.presolve env.staticDirectory "common")] ∧
    e.writes.map Prod.fst =
      [P.presolve env.staticDirectory (pageName ExtensionUIPage.popup ++ env.mountExt),
       P.presolve env.dotPlasmoDirectory (pageName ExtensionUIPage.popup ++ ".html"),
       P.presolve env.staticDirectory (pageName ExtensionUIPage.options ++ env.mountExt),
       P.presolve env.dotPlasmoDirectory (pageName ExtensionUIPage.options ++ ".html"),
       P.presolve env.staticDirectory (pageName ExtensionUIPage.newtab ++ env.mountExt),
       P.presolve env.dotPlasmoDirectory (pageName ExtensionUIPage.newtab ++ ".html"),
       P.presolve env.staticDirectory (pageName ExtensionUIPage.devtools ++ env.mountExt),
       P.presolve env.dotPlasmoDirectory (pageName ExtensionUIPage.devtools ++ ".html")] := by
  simp only [init] at h
  cases hp1 : initUiPageTemplate P env fs ExtensionUIPage.popup c with
  | none =>
    simp only [hp1] at h
    exact absurd h (by simp)
  | some pr₁ =>
    obtain ⟨b1, d1, f1⟩ := pr₁
    cases hp2 : initUiPageTemplate P env fs ExtensionUIPage.options d1 with
    | none =>
      simp only [hp1, hp2] at h
      exact absurd h (by simp)
    | some pr₂ =>
      obtain ⟨b2, d2, f2⟩ := pr₂
      cases hp3 : initUiPageTemplate P env fs ExtensionUIPage.newtab d2 with
      | none =>
        simp only [hp1, hp2, hp3] at h
        exact absurd h (by simp)
      | some pr₃ =>
        obtain ⟨b3, d3, f3⟩ := pr₃
        cases hp4 : initUiPageTemplate P env fs ExtensionUIPage.devtools d3 with
        | none =>
          simp only [hp1, hp2, hp3, hp4] at h
          exact absurd h (by simp)
        | some pr₄ =>
          obtain ⟨b4, d4, f4⟩ := pr₄
          simp only [hp1, hp2, hp3, hp4, Option.some.injEq, Prod.mk.injEq] at h
          obtain ⟨hbs, _, he⟩ := h
          obtain ⟨hb1, hc1, hw1⟩ :=
            initUiPageTemplate_shape P env fs ExtensionUIPage.popup c b1 d1 f1 hp1
          obtain ⟨hb2, hc2, hw2⟩ :=
            initUiPageTemplate_shape P env fs ExtensionUIPage.options d1 b2 d2 f2 hp2
          obtain ⟨hb3, hc3, hw3⟩ :=
            initUiPageTemplate_shape P env fs ExtensionUIPage.newtab d2 b3 d3 f3 hp3
          obtain ⟨hb4, hc4, hw4⟩ :=
            initUiPageTemplate_shape P env fs ExtensionUIPage.devtools d3 b4 d4 f4 hp4
          refine ⟨?_, ?_, ?_⟩
          · rw [← hbs, hb1, hb2, hb3, hb4]
          · simp [← he, Evts.app, copyStaticCommon, hc1, hc2, hc3, hc4]
          · simp [← he, Evts.app, copyStaticCommon, hw1, hw2, hw3, hw4]

/-- Witness for C1 at a concrete layout where only the newtab index exists:
the third boolean is the newtab one. -/
theorem c1_init_order_witness :
    (init pathsFix envC1 fsC1 [] =
      some ([false, false, true, false], cacheFull, evtsC9)) ∧
    ([false, false, true, false] : List Bool) =
      [(resolvedIndexModule envC1 fsC1 ExtensionUIPage.popup).isSome,
       (resolvedIndexModule envC1 fsC1 ExtensionUIPage.options).isSome,
       (resolvedIndexModule envC1 fsC1 ExtensionUIPage.newtab).isSome,
       (resolvedIndexModule envC1 fsC1 ExtensionUIPage.devtools).isSome] ∧
    evtsC9.copies = [(pathsFix.presolve envC1.staticTemplatePath "common",
      pathsFix.presolve envC1.staticDirectory "common")] := by
  have h := c1_init_order pathsFix envC1 fsC1 []
    [false, false, true, false] cacheFull evtsC9 rfl
  exact ⟨rfl, h.1, h.2.1⟩

/-- Counterexample to C1 as stated: with a newtab index present and no
devtools index, `init` returns the newtab boolean in the third position
(array order popup, options, newtab, devtools), not the list ordered
popup, options, devtools, newtab that the claim states. -/
theorem c1_counterexample :
    (init pathsFix envC1 fsC1 []).map (fun r => r.1) =
      some [false, false, true, false] ∧
    [(resolvedIndexModule envC1 fsC1 ExtensionUIPage.popup).isSome,
     (resolvedIndexModule envC1 fsC1 ExtensionUIPage.options).isSome,
     (resolvedIndexModule envC1 fsC1 ExtensionUIPage.devtools).isSome,
     (resolvedIndexModule envC1 fsC1 ExtensionUIPage.newtab).isSome] =
      [false, false, false, true] ∧
    ¬ ((init pathsFix envC1 fsC1 []).map (fun r => r.1) =
      some [(resolvedIndexModule envC1 fsC1 ExtensionUIPage.popup).isSome,
            (resolvedIndexModule envC1 fsC1 ExtensionUIPage.options).isSome,
            (resolvedIndexModule envC1 fsC1 ExtensionUIPage.devtools).isSome,
            (resolvedIndexModule envC1 fsC1 ExtensionUIPage.newtab).isSome]) := by
  refine ⟨rfl, rfl, by decide⟩

/-- C9: the written bytes of a scaffolder run are a deterministic function
of the layout and filesystem: rerunning `init` after a completed run — the
cache now populated — produces the same booleans and byte-identical output
files. -/
theorem c9_rerun_idempotent (P : PathOps) (env : Env) (fs : Fs)
    (bs : List Bool) (k : Cache) (e : Evts)
    (h : init P env fs [] = some (bs, k, e)) :
    ∃ k' e', init P env fs k = some (bs, k', e') ∧ e'.writes = e.writes := by
  obtain ⟨k₁, e₁, _, _, hok1, _⟩ :=
    init_cong P env fs [] [] (cacheOk_nil P env fs) (cacheOk_nil P env fs) bs k e h
  obtain ⟨k₂, e₂, hrun2, hw2, _, _⟩ :=
    init_cong P env fs [] k (cacheOk_nil P env fs) hok1 bs k e h
  exact ⟨k₂, e₂, hrun2, hw2⟩

/-- Witness for C9: the concrete `init` run and its rerun from the populated
cache write identical bytes. -/
theorem c9_rerun_idempotent_witness :
    (init pathsFix envC1 fsC1 [] =
      some ([false, false, true, false], cacheFull, evtsC9)) ∧
    ∃ k' e', init pathsFix envC1 fsC1 cacheFull =
      some ([false, false, true, false], k', e') ∧ e'.writes = evtsC9.writes := by
  refine ⟨rfl, ?_⟩
  exact c9_rerun_idempotent pathsFix envC1 fsC1
    [false, false, true, false] cacheFull evtsC9 rfl

end Plasmo
